import Mathlib

/-!
Verification of `hp_lto_max_temp.go` (helmos/hp-lto-max-temperature).

This file gives a shallow embedding of the core of the program:

* the three constant SCSI command byte sequences (`sendDiagnosticCmd`,
  `sendDiagnosticDataOut`, `receiveDiagnosticCmd`),
* the transport-header construction performed by `sendScsiCommand`
  (`buildHeader`) and its success/failure decision (`sendScsiCommandResult`),
* the diagnostic-page decoder `extractAndConvertTemperature` built on Go's
  `strconv.ParseUint(·, 16, 8)` and `fmt.Sprintf("%X", ·)`,
* `hexToDecimal`, i.e. `strconv.ParseInt(·, 16, 64)`,
* the Celsius scaling `float64(n) / 256` (modelled exactly over `ℚ`; the
  division by the power of two 256 is exact in binary64 for every value the
  program can produce, so the rational model agrees with the float model on
  all inputs considered here), and
* the sequential control flow of `main` after the device is opened
  (`runPipeline`).

Go byte strings are modelled as `List Nat` of byte values; machine-integer
conversions (`uint8`, `uint32`) appear as explicit `% 2 ^ 8` / `% 2 ^ 32`.
-/

/-! ### Constants (hp_lto_max_temp.go, lines 14-59) -/

/-- `SCSI_CMD_LEN = 6` -/
def SCSI_CMD_LEN : Nat := 6

/-- `DATA_OUT_LEN = 8` -/
def DATA_OUT_LEN : Nat := 8

/-- `DATA_IN_LEN = 68` -/
def DATA_IN_LEN : Nat := 68

/-- `SG_DXFER_TO_DEV = -2` -/
def SG_DXFER_TO_DEV : Int := -2

/-- `SG_DXFER_FROM_DEV = 1` -/
def SG_DXFER_FROM_DEV : Int := 1

/-- The 6-byte SEND DIAGNOSTIC CDB (`sendDiagnosticCmd`). -/
def sendDiagnosticCmd : List Nat := [0x1D, 0x10, 0x00, 0x00, 0x08, 0x00]

/-- The 8-byte SEND DIAGNOSTIC parameter payload (`sendDiagnosticDataOut`). -/
def sendDiagnosticDataOut : List Nat := [0x93, 0x00, 0x00, 0x04, 0x00, 0x00, 0x20, 0x2A]

/-- The 6-byte RECEIVE DIAGNOSTIC RESULTS CDB (`receiveDiagnosticCmd`). -/
def receiveDiagnosticCmd : List Nat := [0x1C, 0x01, 0x93, 0x00, 0x44, 0x00]

/-! ### Go `strconv` number parsing (as invoked with base 16) -/

/-- The two error kinds `strconv` can report: `ErrSyntax` and `ErrRange`. -/
inductive GoErr where
  | errSyntax
  | errRange
deriving DecidableEq

/-- Go `strconv`'s `lower(c) = c | ('x' - 'X') = c | 0x20`.  Or-ing with
`0x20` sets bit 5 of the byte, i.e. it adds 32 exactly when bit 5 is clear. -/
def lowerGo (c : Nat) : Nat := if (c / 32) % 2 = 1 then c else c + 32

/-- The digit classification of the `ParseUint` loop specialised to base 16:
`'0' ≤ c ≤ '9'` gives `c - '0'`; otherwise a byte with
`'a' ≤ lower(c) ≤ 'z'` gives `d = lower(c) - 'a' + 10`, which passes the
`d < base` check exactly when `lower(c) ≤ 'f'`; every other byte is a syntax
error.  `none` means the byte is rejected. -/
def hexDigitVal (c : Nat) : Option Nat :=
  if 48 ≤ c ∧ c ≤ 57 then some (c - 48)
  else if 97 ≤ lowerGo c ∧ lowerGo c ≤ 102 then some (lowerGo c - 87)
  else none

/-- `ParseUint`'s overflow cutoff for base 16: `maxUint64/16 + 1 = 2^60`
(computed from `maxUint64` regardless of `bitSize`). -/
def uintCutoff16 : Nat := (2 ^ 64 - 1) / 16 + 1

/-- The digit-accumulation loop of Go `ParseUint(s, 16, bitSize)` over the
bytes of `s`, with `maxVal = 2^bitSize - 1`.  Each step rejects a non-digit
byte (`ErrSyntax`), then checks `n >= cutoff` (the multiply would overflow)
and `n*16 + d > maxVal` (`ErrRange`).  Because the cutoff check precedes the
multiply, the `uint64` arithmetic never wraps, so plain `Nat` arithmetic is
exact (the dead `n1 < n` wrap check of the source is omitted). -/
def parseUintLoop (maxVal : Nat) : List Nat → Nat → Except GoErr Nat
  | [], n => .ok n
  | c :: rest, n =>
    match hexDigitVal c with
    | none => .error .errSyntax
    | some d =>
      if uintCutoff16 ≤ n then .error .errRange
      else if maxVal < 16 * n + d then .error .errRange
      else parseUintLoop maxVal rest (16 * n + d)

/-- Go `strconv.ParseUint(s, 16, bitSize)`: an empty string is a syntax
error (base 16 admits no sign, no prefix and no underscores); otherwise the
digit loop runs over all bytes. -/
def parseUintBase16 (bitSize : Nat) (s : List Nat) : Except GoErr Nat :=
  if s = [] then .error .errSyntax
  else parseUintLoop (2 ^ bitSize - 1) s 0

/-- The sign-stripping step of Go `ParseInt`: one leading `'+'` (43) or
`'-'` (45) is removed; everything else is left alone. -/
def stripSign (s : List Nat) : List Nat :=
  match s with
  | [] => []
  | c :: rest => if c = 43 ∨ c = 45 then rest else s

/-- Go `strconv.ParseInt(s, 16, 64)`: empty input is a syntax error; an
optional sign is stripped; the rest is parsed by `ParseUint(·, 16, 64)`.
A `ParseUint` range error leaves `un = maxUint64`, which the signed cutoff
checks (`un ≥ 2^63` for positive, `un > 2^63` for negative) again turn into
a range error, so error kinds pass through unchanged. -/
def parseIntBase16 (s : List Nat) : Except GoErr Int :=
  match s with
  | [] => .error .errSyntax
  | c :: _ =>
    match parseUintBase16 64 (stripSign s) with
    | .error e => .error e
    | .ok un =>
      if c = 45 then
        if 2 ^ 63 < un then .error .errRange else .ok (-(un : Int))
      else
        if 2 ^ 63 ≤ un then .error .errRange else .ok (un : Int)

/-- `hexToDecimal` (hp_lto_max_temp.go, lines 251-253):
`strconv.ParseInt(hexStr, 16, 64)`. -/
def hexToDecimal (s : List Nat) : Except GoErr Int := parseIntBase16 s

/-! ### `fmt.Sprintf("%X", v)` for the byte-range values the decoder uses -/

/-- The uppercase hex digit byte for `d ≤ 15`: `'0'..'9'` then `'A'..'F'`. -/
def hexUpperChar (d : Nat) : Nat := if d < 10 then 48 + d else 55 + d

/-- `fmt.Sprintf("%X", v)` (minimal-width uppercase hex, no leading zeros)
for `v < 256` — every value fed to it by the decoder, since it comes from
`ParseUint(·, 16, 8)`: one digit below 16, else two. -/
def toUpperHex (n : Nat) : List Nat :=
  if n < 16 then [hexUpperChar n] else [hexUpperChar (n / 16), hexUpperChar (n % 16)]

/-! ### The decoder `extractAndConvertTemperature` (lines 230-248) -/

/-- The decoder's two error messages: the `len(data) < 30` guard
(`"data length is too short"`) and the per-pair parse failure
(`"error parsing byte pair %s: %v"`, which embeds the offending pair and
the `strconv` error). -/
inductive ExtractErr where
  | lengthTooShort
  | parsePair (pair : List Nat) (e : GoErr)
deriving DecidableEq

/-- The loop `for i := 22; i < 30; i += 2`, iterated over its index
sequence: each step slices `data[i:i+2]`, parses it with
`ParseUint(·, 16, 8)`, and appends `Sprintf("%X", byteVal)` to the
accumulator `tempHex`. -/
def extractLoop (data : List Nat) : List Nat → List Nat → Except ExtractErr (List Nat)
  | acc, [] => .ok acc
  | acc, i :: rest =>
    match parseUintBase16 8 ((data.drop i).take 2) with
    | .error e => .error (.parsePair ((data.drop i).take 2) e)
    | .ok byteVal => extractLoop data (acc ++ toUpperHex byteVal) rest

/-- `extractAndConvertTemperature`: reject pages shorter than 30 bytes,
else run the pair loop over indices 22, 24, 26, 28. -/
def extractAndConvertTemperature (data : List Nat) : Except ExtractErr (List Nat) :=
  if data.length < 30 then .error .lengthTooShort
  else extractLoop data [] [22, 24, 26, 28]

/-- Step 5 of `main` (line 169): `float64(temperatureDecimal) / 256`,
modelled exactly over `ℚ`. -/
def toCelsius (n : Int) : ℚ := (n : ℚ) / 256

/-! ### Derived predicates used in the claim statements -/

/-- A byte that is an uppercase hexadecimal digit (`0-9` or `A-F`). -/
def isUpperHexDigit (c : Nat) : Prop := (48 ≤ c ∧ c ≤ 57) ∨ (65 ≤ c ∧ c ≤ 70)

instance (c : Nat) : Decidable (isUpperHexDigit c) := by
  unfold isUpperHexDigit; infer_instance

/-- The hex value of a byte, defaulting to 0 for non-digits. -/
def hexValD (c : Nat) : Nat := (hexDigitVal c).getD 0

/-- The 8-bit value of the ASCII pair at offsets `i`, `i+1` of the page. -/
def pairValD (data : List Nat) (i : Nat) : Nat :=
  16 * hexValD (data.getD i 0) + hexValD (data.getD (i + 1) 0)

/-- Both bytes of the pair at offsets `i`, `i+1` are hex-digit ASCII. -/
def goodPairAt (data : List Nat) (i : Nat) : Prop :=
  (hexDigitVal (data.getD i 0)).isSome ∧ (hexDigitVal (data.getD (i + 1) 0)).isSome

instance (data : List Nat) (i : Nat) : Decidable (goodPairAt data i) := by
  unfold goodPairAt; infer_instance

/-- The value accumulated by the `ParseUint` digit loop started at `n`. -/
def foldVal (n : Nat) (l : List Nat) : Nat :=
  l.foldl (fun a c => 16 * a + hexValD c) n

/-- A byte string accepted by `ParseInt(·, 16, ·)`: after removing one
optional leading sign, it is a nonempty run of hexadecimal digits (this is
the claim's "hexadecimal string" for a signed base-16 integer). -/
def isSignedHexNumeral (s : List Nat) : Prop :=
  stripSign s ≠ [] ∧ ∀ c ∈ stripSign s, (hexDigitVal c).isSome

/-! ### The transport: `sendScsiCommand` (lines 185-228)

`sendScsiCommand` 1) builds an `SG_IO_Header`, 2) issues one `SG_IO`
ioctl, 3) fails with the wrapped ioctl error if the ioctl itself fails,
else fails with a status error if the kernel-written `header.status` byte
is nonzero, else succeeds.  The header construction is pure and is
modelled by `buildHeader`; the ioctl outcome and the device status byte it
writes are oracle inputs to `sendScsiCommandResult`, which captures the
error decision made after the call.  The sense buffer the kernel may fill
is also an oracle input; the code only prints it under `--verbose` and
never branches on its contents. -/

/-- Which buffer `header.dxferp` points at.  The code first points it at
`dataOut` when `len(dataOut) > 0`, then overwrites it with `dataIn` when
`len(dataIn) > 0`; with no buffer it stays null. -/
inductive DxferPtr where
  | noBuf
  | outBuf
  | inBuf
deriving DecidableEq

/-- `len(sense)`: the sense buffer is `make([]byte, 32)`. -/
def senseBufferLen : Nat := 32

/-- The fields of `SG_IO_Header` that `sendScsiCommand` fills in before
the ioctl (lines 190-208).  Pointer fields are abstracted to which buffer
they designate; the `uint8`/`uint32` fields carry their conversions as
explicit mods. -/
structure SGIOHeader where
  interface_id : Nat
  dxfer_direction : Int
  cmd_len : Nat
  mx_sb_len : Nat
  dxfer_len : Nat
  dxferp : DxferPtr
  timeout : Nat
deriving DecidableEq

/-- The header construction of `sendScsiCommand`: `interface_id = 'S'`
(83), `cmd_len = uint8(len(cmd))`, `mx_sb_len = uint8(len(sense)) = 32`,
`dxfer_len = uint32(len(dataOut) + len(dataIn))`,
`timeout = uint32(timeoutNs / time.Millisecond)` (the Go durations used
are nonnegative), and the two conditional `dxferp` assignments. -/
def buildHeader (cmdLen outLen inLen : Nat) (direction : Int) (timeoutNs : Nat) : SGIOHeader :=
  let base : SGIOHeader :=
    { interface_id := 83
      dxfer_direction := direction
      cmd_len := cmdLen % 2 ^ 8
      mx_sb_len := senseBufferLen % 2 ^ 8
      dxfer_len := (outLen + inLen) % 2 ^ 32
      dxferp := DxferPtr.noBuf
      timeout := (timeoutNs / 1000000) % 2 ^ 32 }
  let h1 := if 0 < outLen then { base with dxferp := DxferPtr.outBuf } else base
  if 0 < inLen then { h1 with dxferp := DxferPtr.inBuf } else h1

/-- The header built for `main`'s SEND DIAGNOSTIC call (line 126):
6-byte CDB, the 8-byte payload out, nothing in, direction `TO_DEV`,
timeout `60 * time.Second` nanoseconds. -/
def sendPhaseHeader : SGIOHeader :=
  buildHeader sendDiagnosticCmd.length sendDiagnosticDataOut.length 0
    SG_DXFER_TO_DEV (60 * 1000000000)

/-- The header built for `main`'s RECEIVE DIAGNOSTIC RESULTS call
(line 139): 6-byte CDB, nothing out, the 68-byte `dataIn` buffer in,
direction `FROM_DEV`, timeout `10 * time.Second` nanoseconds. -/
def receivePhaseHeader : SGIOHeader :=
  buildHeader receiveDiagnosticCmd.length 0 DATA_IN_LEN
    SG_DXFER_FROM_DEV (10 * 1000000000)

/-- The two failure shapes of `sendScsiCommand`: the wrapped ioctl error
(`"command failed: %w"`, carrying the errno) and the status failure
(`"command failed with status: %d"`, carrying the status byte). -/
inductive ScsiErr where
  | transportError (errno : Nat)
  | statusError (status : Nat)
deriving DecidableEq

/-- The error decision of `sendScsiCommand` (lines 214-227) as a function
of the ioctl outcome (`some errno` on failure, `none` on success), the
device status byte the kernel wrote into the header, and the sense buffer
contents (never consulted). -/
def sendScsiCommandResult (ioctlErr : Option Nat) (status : Nat) (sense : List Nat) :
    Except ScsiErr Unit :=
  match ioctlErr, sense with
  | some e, _ => .error (.transportError e)
  | none, _ => if status ≠ 0 then .error (.statusError status) else .ok ()

/-! ### The run pipeline: `main` after the device is opened (lines 122-171) -/

/-- What a run of `main` did: the process exit code, whether
`extractAndConvertTemperature` was ever invoked, and whether the final
temperature line was printed. -/
structure RunResult where
  exitCode : Nat
  extractInvoked : Bool
  tempLinePrinted : Bool
deriving DecidableEq

/-- `main`'s sequencing after the open: a failed SEND DIAGNOSTIC exchange
exits 1 immediately; a failed RECEIVE DIAGNOSTIC exchange exits 1
immediately; only then is the decoder run on `dataIn`, a decode or
conversion failure exits 1, and the success path prints the temperature
line and exits 0. -/
def runPipeline (sendRes recvRes : Except ScsiErr Unit) (dataIn : List Nat) : RunResult :=
  match sendRes with
  | .error _ => ⟨1, false, false⟩
  | .ok _ =>
    match recvRes with
    | .error _ => ⟨1, false, false⟩
    | .ok _ =>
      match extractAndConvertTemperature dataIn with
      | .error _ => ⟨1, true, false⟩
      | .ok temperatureHex =>
        match hexToDecimal temperatureHex with
        | .error _ => ⟨1, true, false⟩
        | .ok _ => ⟨0, true, true⟩

/-! ### Concrete diagnostic pages used as witnesses -/

/-- A 30-byte page whose temperature field is the ASCII bytes `"AAAAAAAA"`:
every pair is valid hex (`0xAA = 170`), and each fragment `"AA"` has two
characters. -/
def dataPageA : List Nat := List.replicate 22 48 ++ List.replicate 8 65

/-- A 30-byte page whose temperature field is the ASCII bytes `"00080401"`:
the pairs decode to 0, 8, 4, 1, so the decoder yields `"0841"` — the worked
example of the spec. -/
def dataPageB : List Nat := List.replicate 22 48 ++ [48, 48, 48, 56, 48, 52, 48, 49]

/-- A 30-byte page whose temperature field starts with the non-hex byte
`'G'` (71). -/
def dataPageC : List Nat := List.replicate 22 48 ++ (71 :: List.replicate 7 48)

/-! ### Helper lemmas -/

lemma hexDigitVal_le (c v : Nat) (h : hexDigitVal c = some v) : v ≤ 15 := by
  unfold hexDigitVal at h
  split at h
  · next hc => cases h; omega
  · split at h
    · next hc =>
      cases h
      omega
    · cases h

lemma hexValD_le (c : Nat) : hexValD c ≤ 15 := by
  unfold hexValD
  cases h : hexDigitVal c with
  | none => simp
  | some v => simpa using hexDigitVal_le c v h

lemma hexValD_of_some (c v : Nat) (h : hexDigitVal c = some v) : hexValD c = v := by
  simp [hexValD, h]

lemma hexDigitVal_isSome_of_upper (c : Nat) (h : isUpperHexDigit c) :
    (hexDigitVal c).isSome := by
  have hle : c < 71 := by
    rcases h with ⟨_, h2⟩ | ⟨_, h2⟩ <;> omega
  have H : ∀ x, x < 71 → (isUpperHexDigit x → (hexDigitVal x).isSome) := by decide
  exact H c hle h

lemma isUpperHexDigit_hexUpperChar (d : Nat) (hd : d ≤ 15) :
    isUpperHexDigit (hexUpperChar d) := by
  unfold hexUpperChar isUpperHexDigit
  split
  · left; omega
  · right; omega

lemma toUpperHex_length (v : Nat) :
    1 ≤ (toUpperHex v).length ∧ (toUpperHex v).length ≤ 2 := by
  unfold toUpperHex
  split <;> simp

lemma toUpperHex_upper (v : Nat) (hv : v ≤ 255) :
    ∀ c ∈ toUpperHex v, isUpperHexDigit c := by
  unfold toUpperHex
  split
  · next hlt =>
    intro c hc
    simp only [List.mem_singleton] at hc
    subst hc
    exact isUpperHexDigit_hexUpperChar v (by omega)
  · intro c hc
    simp only [List.mem_cons, List.mem_singleton, List.not_mem_nil, or_false] at hc
    rcases hc with rfl | rfl
    · exact isUpperHexDigit_hexUpperChar _ (by omega)
    · exact isUpperHexDigit_hexUpperChar _ (by omega)

lemma uintCutoff16_eq : uintCutoff16 = 1152921504606846976 := by
  norm_num [uintCutoff16]

/-- The 2-byte case of `ParseUint(·, 16, 8)`: both bytes hex digits. -/
lemma parseUint8_pair_ok (a b va vb : Nat) (ha : hexDigitVal a = some va)
    (hb : hexDigitVal b = some vb) :
    parseUintBase16 8 [a, b] = .ok (16 * va + vb) := by
  have hva := hexDigitVal_le a va ha
  have hvb := hexDigitVal_le b vb hb
  have hcut := uintCutoff16_eq
  have h8 : (2 : Nat) ^ 8 - 1 = 255 := by norm_num
  unfold parseUintBase16
  rw [if_neg (by simp)]
  simp only [parseUintLoop, ha, hb]
  rw [if_neg (by omega), if_neg (by omega), if_neg (by omega), if_neg (by omega)]
  norm_num

/-- The 2-byte case of `ParseUint(·, 16, 8)`: first byte not a hex digit. -/
lemma parseUint8_pair_errA (a b : Nat) (ha : hexDigitVal a = none) :
    parseUintBase16 8 [a, b] = .error .errSyntax := by
  unfold parseUintBase16
  rw [if_neg (by simp)]
  simp only [parseUintLoop, ha]

/-- The 2-byte case of `ParseUint(·, 16, 8)`: second byte not a hex digit. -/
lemma parseUint8_pair_errB (a b va : Nat) (ha : hexDigitVal a = some va)
    (hb : hexDigitVal b = none) :
    parseUintBase16 8 [a, b] = .error .errSyntax := by
  have hva := hexDigitVal_le a va ha
  have hcut := uintCutoff16_eq
  have h8 : (2 : Nat) ^ 8 - 1 = 255 := by norm_num
  unfold parseUintBase16
  rw [if_neg (by simp)]
  simp only [parseUintLoop, ha, hb]
  rw [if_neg (by omega), if_neg (by omega)]

/-- Any value `ParseUint` accepts is bounded by `maxVal`. -/
lemma parseUintLoop_le (maxVal : Nat) :
    ∀ (l : List Nat) (n v : Nat), n ≤ maxVal →
      parseUintLoop maxVal l n = .ok v → v ≤ maxVal := by
  intro l
  induction l with
  | nil =>
    intro n v hn h
    simp only [parseUintLoop] at h
    cases h
    exact hn
  | cons c rest ih =>
    intro n v hn h
    simp only [parseUintLoop] at h
    cases hc : hexDigitVal c with
    | none =>
      simp only [hc] at h
      cases h
    | some d =>
      simp only [hc] at h
      split at h
      · cases h
      · split at h
        · cases h
        · next h2 => exact ih (16 * n + d) v (by omega) h

lemma parseUint8_ok_le (l : List Nat) (v : Nat)
    (h : parseUintBase16 8 l = .ok v) : v ≤ 255 := by
  unfold parseUintBase16 at h
  split at h
  · cases h
  · have := parseUintLoop_le (2 ^ 8 - 1) l 0 v (by norm_num) h
    omega

/-- `take 2` of `drop i` is the two elements at `i` and `i+1`. -/
lemma drop_take_two (l : List Nat) (i : Nat) (h : i + 1 < l.length) :
    (l.drop i).take 2 = [l.getD i 0, l.getD (i + 1) 0] := by
  induction l generalizing i with
  | nil => simp at h
  | cons a t ih =>
    cases i with
    | zero =>
      cases t with
      | nil => simp at h
      | cons b t2 => simp [List.getD]
    | succ j =>
      simp only [List.length_cons] at h
      simpa [List.getD] using ih j (by omega)

/-- When every indexed pair is in range and consists of hex-digit ASCII,
the loop succeeds and returns the accumulator followed by the `%X`
fragments of the pair values, in index order. -/
lemma extractLoop_ok_of_goodPairs (d : List Nat) (idxs : List Nat) :
    ∀ acc, (∀ i ∈ idxs, i + 1 < d.length ∧ goodPairAt d i) →
    extractLoop d acc idxs =
      .ok (acc ++ (idxs.map fun i => toUpperHex (pairValD d i)).flatten) := by
  induction idxs with
  | nil => intro acc _; simp [extractLoop]
  | cons i rest ih =>
    intro acc h
    obtain ⟨hlen, hga, hgb⟩ := h i (List.mem_cons_self i rest)
    rcases Option.isSome_iff_exists.mp hga with ⟨va, hva⟩
    rcases Option.isSome_iff_exists.mp hgb with ⟨vb, hvb⟩
    have hpair : (d.drop i).take 2 = [d.getD i 0, d.getD (i + 1) 0] :=
      drop_take_two d i hlen
    have hparse : parseUintBase16 8 ((d.drop i).take 2) = .ok (pairValD d i) := by
      rw [hpair, parseUint8_pair_ok _ _ va vb hva hvb]
      unfold pairValD
      rw [hexValD_of_some _ _ hva, hexValD_of_some _ _ hvb]
    simp only [extractLoop, hparse]
    rw [ih (acc ++ toUpperHex (pairValD d i)) (fun j hj => h j (List.mem_cons_of_mem i hj))]
    simp [List.append_assoc]

/-- If some indexed pair is not hex-digit ASCII, the loop fails with a
pair-parse error. -/
lemma extractLoop_err_of_badPair (d : List Nat) (idxs : List Nat) :
    ∀ acc, (∀ i ∈ idxs, i + 1 < d.length) →
    (∃ i ∈ idxs, ¬goodPairAt d i) →
    ∃ p e, extractLoop d acc idxs = .error (.parsePair p e) := by
  induction idxs with
  | nil => intro _ _ hbad; simp at hbad
  | cons i rest ih =>
    intro acc hlen hbad
    have hpair : (d.drop i).take 2 = [d.getD i 0, d.getD (i + 1) 0] :=
      drop_take_two d i (hlen i (List.mem_cons_self i rest))
    by_cases hg : goodPairAt d i
    · rcases Option.isSome_iff_exists.mp hg.1 with ⟨va, hva⟩
      rcases Option.isSome_iff_exists.mp hg.2 with ⟨vb, hvb⟩
      have hparse : parseUintBase16 8 ((d.drop i).take 2) = .ok (16 * va + vb) := by
        rw [hpair]; exact parseUint8_pair_ok _ _ va vb hva hvb
      simp only [extractLoop, hparse]
      apply ih
      · exact fun j hj => hlen j (List.mem_cons_of_mem i hj)
      · rcases hbad with ⟨j, hj, hjbad⟩
        rcases List.mem_cons.mp hj with rfl | hj2
        · exact absurd hg hjbad
        · exact ⟨j, hj2, hjbad⟩
    · have hparse : parseUintBase16 8 ((d.drop i).take 2) = .error .errSyntax := by
        rw [hpair]
        unfold goodPairAt at hg
        rcases hA : hexDigitVal (d.getD i 0) with _ | vA
        · exact parseUint8_pair_errA _ _ hA
        · rcases hB : hexDigitVal (d.getD (i + 1) 0) with _ | vB
          · exact parseUint8_pair_errB _ _ vA hA hB
          · exact absurd ⟨by rw [hA]; rfl, by rw [hB]; rfl⟩ hg
      refine ⟨(d.drop i).take 2, .errSyntax, ?_⟩
      simp only [extractLoop, hparse]

/-- The loop's result is invariant under changing page bytes outside the
slices it reads. -/
lemma extractLoop_congr (d1 d2 : List Nat) (idxs : List Nat) :
    ∀ acc, (∀ i ∈ idxs, (d1.drop i).take 2 = (d2.drop i).take 2) →
    extractLoop d1 acc idxs = extractLoop d2 acc idxs := by
  induction idxs with
  | nil => intro acc _; simp [extractLoop]
  | cons i rest ih =>
    intro acc h
    have hp := h i (List.mem_cons_self i rest)
    simp only [extractLoop, hp]
    cases parseUintBase16 8 ((d2.drop i).take 2) with
    | error e => rfl
    | ok v => exact ih _ (fun j hj => h j (List.mem_cons_of_mem i hj))

/-- Inversion for a successful loop run: every output byte is either from
the accumulator or an uppercase hex digit, and the output length grows by
one or two bytes per index. -/
lemma extractLoop_ok_shape (d : List Nat) (idxs : List Nat) :
    ∀ acc s, extractLoop d acc idxs = .ok s →
      (∀ c ∈ s, c ∈ acc ∨ isUpperHexDigit c) ∧
      acc.length + idxs.length ≤ s.length ∧
      s.length ≤ acc.length + 2 * idxs.length := by
  induction idxs with
  | nil =>
    intro acc s h
    simp only [extractLoop] at h
    cases h
    exact ⟨fun c hc => Or.inl hc, by simp, by simp⟩
  | cons i rest ih =>
    intro acc s h
    simp only [extractLoop] at h
    cases hp : parseUintBase16 8 ((d.drop i).take 2) with
    | error e =>
      simp only [hp] at h
      cases h
    | ok v =>
      simp only [hp] at h
      have hv : v ≤ 255 := parseUint8_ok_le _ v hp
      obtain ⟨hmem, hlo, hhi⟩ := ih (acc ++ toUpperHex v) s h
      obtain ⟨hf1, hf2⟩ := toUpperHex_length v
      refine ⟨?_, ?_, ?_⟩
      · intro c hc
        rcases hmem c hc with hca | hcu
        · rcases List.mem_append.mp hca with hca1 | hca2
          · exact Or.inl hca1
          · exact Or.inr (toUpperHex_upper v hv c hca2)
        · exact Or.inr hcu
      · simp only [List.length_append] at hlo
        simp only [List.length_cons]
        omega
      · simp only [List.length_append] at hhi
        simp only [List.length_cons]
        omega

/-- The accumulated value never decreases. -/
lemma foldVal_ge (l : List Nat) : ∀ n, n ≤ foldVal n l := by
  induction l with
  | nil => intro n; simp [foldVal]
  | cons c rest ih =>
    intro n
    have h1 : n ≤ 16 * n + hexValD c := by omega
    calc n ≤ 16 * n + hexValD c := h1
      _ ≤ foldVal (16 * n + hexValD c) rest := ih _
      _ = foldVal n (c :: rest) := by simp [foldVal]

/-- The accumulated value is bounded by the digit count. -/
lemma foldVal_le (l : List Nat) : ∀ n, foldVal n l ≤ 16 ^ l.length * (n + 1) - 1 := by
  induction l with
  | nil => intro n; simp [foldVal]
  | cons c rest ih =>
    intro n
    have hd : hexValD c ≤ 15 := hexValD_le c
    have h0 : foldVal n (c :: rest) = foldVal (16 * n + hexValD c) rest := by
      simp [foldVal]
    have h1 := ih (16 * n + hexValD c)
    have h2 : 16 ^ rest.length * (16 * n + hexValD c + 1) ≤
        16 ^ rest.length * (16 * (n + 1)) :=
      Nat.mul_le_mul_left _ (by omega)
    have h3 : 16 ^ rest.length * (16 * (n + 1)) = 16 ^ (rest.length + 1) * (n + 1) := by
      ring
    simp only [List.length_cons]
    omega

/-- The digit loop accepts any all-hex-digit run whose value fits. -/
lemma parseUintLoop_ok (maxVal : Nat) (hmax : maxVal ≤ 2 ^ 64 - 1) :
    ∀ (l : List Nat) (n : Nat), (∀ c ∈ l, (hexDigitVal c).isSome) →
      foldVal n l ≤ maxVal → parseUintLoop maxVal l n = .ok (foldVal n l) := by
  intro l
  induction l with
  | nil => intro n _ _; simp [parseUintLoop, foldVal]
  | cons c rest ih =>
    intro n hdig hle
    rcases Option.isSome_iff_exists.mp (hdig c (List.mem_cons_self c rest)) with ⟨d, hd⟩
    have hdval : hexValD c = d := hexValD_of_some _ _ hd
    have h0 : foldVal n (c :: rest) = foldVal (16 * n + d) rest := by
      simp [foldVal, hdval]
    have hge : 16 * n + d ≤ foldVal (16 * n + d) rest := foldVal_ge rest _
    have hcut := uintCutoff16_eq
    have h64 : (2 : Nat) ^ 64 - 1 = 18446744073709551615 := by norm_num
    simp only [parseUintLoop, hd]
    rw [if_neg (by omega), if_neg (by omega)]
    rw [ih (16 * n + d) (fun j hj => hdig j (List.mem_cons_of_mem c hj)) (by omega)]
    rw [h0]

/-- The digit loop rejects any run containing a non-hex-digit byte. -/
lemma parseUintLoop_err (maxVal : Nat) :
    ∀ (l : List Nat) (n : Nat), (∃ c ∈ l, hexDigitVal c = none) →
      ∃ e, parseUintLoop maxVal l n = .error e := by
  intro l
  induction l with
  | nil => intro n hbad; simp at hbad
  | cons c rest ih =>
    intro n hbad
    cases hc : hexDigitVal c with
    | none => exact ⟨.errSyntax, by simp [parseUintLoop, hc]⟩
    | some d =>
      simp only [parseUintLoop, hc]
      by_cases h1 : uintCutoff16 ≤ n
      · exact ⟨.errRange, by rw [if_pos h1]⟩
      · by_cases h2 : maxVal < 16 * n + d
        · exact ⟨.errRange, by rw [if_neg h1, if_pos h2]⟩
        · rw [if_neg h1, if_neg h2]
          apply ih
          rcases hbad with ⟨c2, hc2, hc2bad⟩
          rcases List.mem_cons.mp hc2 with rfl | hc2m
          · rw [hc] at hc2bad; cases hc2bad
          · exact ⟨c2, hc2m, hc2bad⟩

/-! ### Claim theorems -/

/-- C2: for every byte slice of length strictly less than 30, the decoder
fails with the length-violation error (and, being a total Lean function,
it neither panics nor reads out of bounds on any input). -/
theorem extract_short_page_fails (data : List Nat) (h : data.length < 30) :
    extractAndConvertTemperature data = .error .lengthTooShort := by
  unfold extractAndConvertTemperature
  rw [if_pos h]

/-- C2 witness: a 29-byte page (one short) yields the length error. -/
theorem extract_short_page_fails_witness :
    extractAndConvertTemperature (List.replicate 29 0) = .error .lengthTooShort :=
  extract_short_page_fails (List.replicate 29 0) (by simp)

/-- C5: the two CDBs and the diagnostic payload are byte-for-byte the
constants the vendor specification requires, with the mandated lengths;
being Lean constants, every observation yields these same values. -/
theorem command_builder_constants :
    sendDiagnosticCmd = [0x1D, 0x10, 0x00, 0x00, 0x08, 0x00] ∧
    sendDiagnosticCmd.length = SCSI_CMD_LEN ∧
    sendDiagnosticDataOut = [0x93, 0x00, 0x00, 0x04, 0x00, 0x00, 0x20, 0x2A] ∧
    sendDiagnosticDataOut.length = DATA_OUT_LEN ∧
    receiveDiagnosticCmd = [0x1C, 0x01, 0x93, 0x00, 0x44, 0x00] ∧
    receiveDiagnosticCmd.length = SCSI_CMD_LEN := by
  refine ⟨rfl, rfl, rfl, rfl, rfl, rfl⟩

/-- C6: `hexToDecimal "0000"` is 0 and scales to 0 °C; `hexToDecimal
"0100"` is 256 and scales to exactly 1 °C (the byte lists are the ASCII
strings `"0000"` and `"0100"`; both quotients are exact in binary64, so
the rational model coincides with the float computation). -/
theorem decode_zero_and_one_celsius :
    hexToDecimal [48, 48, 48, 48] = .ok 0 ∧ toCelsius 0 = 0 ∧
    hexToDecimal [48, 49, 48, 48] = .ok 256 ∧ toCelsius 256 = 1 := by
  refine ⟨rfl, by norm_num [toCelsius], rfl, by norm_num [toCelsius]⟩

/-- C7: the transport wrapper succeeds iff the ioctl succeeded and the
device status byte is zero; an ioctl failure is wrapped as a transport
error, a nonzero status yields the distinct status error, and the sense
buffer contents never influence the outcome. -/
theorem scsi_status_decision (ioctlErr : Option Nat) (status : Nat) (sense : List Nat) :
    (sendScsiCommandResult ioctlErr status sense = .ok () ↔
      ioctlErr = none ∧ status = 0) ∧
    (∀ e, ioctlErr = some e →
      sendScsiCommandResult ioctlErr status sense = .error (.transportError e)) ∧
    (ioctlErr = none → status ≠ 0 →
      sendScsiCommandResult ioctlErr status sense = .error (.statusError status)) ∧
    (∀ st e, ScsiErr.statusError st ≠ ScsiErr.transportError e) ∧
    (∀ sense2, sendScsiCommandResult ioctlErr status sense =
      sendScsiCommandResult ioctlErr status sense2) := by
  refine ⟨?_, ?_, ?_, ?_, ?_⟩
  · cases ioctlErr with
    | none =>
      constructor
      · intro h
        refine ⟨rfl, ?_⟩
        by_contra hst
        simp [sendScsiCommandResult, hst] at h
      · rintro ⟨-, rfl⟩
        simp [sendScsiCommandResult]
    | some e =>
      constructor
      · intro h
        simp [sendScsiCommandResult] at h
      · rintro ⟨h, -⟩
        cases h
  · rintro e rfl
    rfl
  · rintro rfl hst
    simp [sendScsiCommandResult, hst]
  · intro st e h
    cases h
  · intro sense2
    cases ioctlErr <;> rfl

/-- C7 witness: status 5 with a successful ioctl is a status failure. -/
theorem scsi_status_decision_witness :
    sendScsiCommandResult none 5 [] = .error (.statusError 5) :=
  (scsi_status_decision none 5 []).2.2.1 rfl (by omega)

/-- C8: if either transport exchange fails (ioctl error or nonzero device
status), the run exits 1 without ever invoking the decoder and without
printing the temperature line. -/
theorem transport_failure_aborts_run :
    (∀ (e1 : Option Nat) (st1 : Nat) (sn1 : List Nat)
        (recvRes : Except ScsiErr Unit) (dataIn : List Nat),
      (e1 ≠ none ∨ st1 ≠ 0) →
      runPipeline (sendScsiCommandResult e1 st1 sn1) recvRes dataIn =
        ⟨1, false, false⟩) ∧
    (∀ (sendRes : Except ScsiErr Unit) (e2 : Option Nat) (st2 : Nat)
        (sn2 : List Nat) (dataIn : List Nat),
      sendRes = .ok () →
      (e2 ≠ none ∨ st2 ≠ 0) →
      runPipeline sendRes (sendScsiCommandResult e2 st2 sn2) dataIn =
        ⟨1, false, false⟩) := by
  constructor
  · intro e1 st1 sn1 recvRes dataIn hfail
    cases e1 with
    | some e => rfl
    | none =>
      rcases hfail with h | h
      · exact absurd rfl h
      · simp [runPipeline, sendScsiCommandResult, h]
  · rintro sendRes e2 st2 sn2 dataIn rfl hfail
    cases e2 with
    | some e => rfl
    | none =>
      rcases hfail with h | h
      · exact absurd rfl h
      · simp [runPipeline, sendScsiCommandResult, h]

/-- C8 witness: an ioctl failure in the send phase yields exit code 1 with
no decode and no temperature line. -/
theorem transport_failure_aborts_run_witness :
    runPipeline (sendScsiCommandResult (some 5) 0 []) (.ok ()) [] =
      ⟨1, false, false⟩ :=
  transport_failure_aborts_run.1 (some 5) 0 [] (.ok ()) []
    (Or.inl (by simp))

/-- C9: every header carries `cmd_len` equal to the CDB length (byte
values), `mx_sb_len` 32 for the 32-byte sense buffer, `dxfer_len` the
combined outbound+inbound length, and the timeout converted from
nanoseconds to milliseconds; the send-phase header points at the outbound
buffer with a 60000 ms timeout and the receive-phase header points at the
inbound buffer with a 10000 ms timeout. -/
theorem header_construction :
    (∀ (cmdLen outLen inLen : Nat) (dir : Int) (timeoutNs : Nat),
      (buildHeader cmdLen outLen inLen dir timeoutNs).mx_sb_len = 32 ∧
      (buildHeader cmdLen outLen inLen dir timeoutNs).dxfer_len =
        (outLen + inLen) % 2 ^ 32 ∧
      (buildHeader cmdLen outLen inLen dir timeoutNs).timeout =
        (timeoutNs / 1000000) % 2 ^ 32 ∧
      (cmdLen < 256 →
        (buildHeader cmdLen outLen inLen dir timeoutNs).cmd_len = cmdLen)) ∧
    sendPhaseHeader.cmd_len = 6 ∧
    sendPhaseHeader.dxfer_len = 8 ∧
    sendPhaseHeader.dxferp = DxferPtr.outBuf ∧
    sendPhaseHeader.timeout = 60000 ∧
    receivePhaseHeader.cmd_len = 6 ∧
    receivePhaseHeader.dxfer_len = 68 ∧
    receivePhaseHeader.dxferp = DxferPtr.inBuf ∧
    receivePhaseHeader.timeout = 10000 := by
  refine ⟨?_, rfl, rfl, rfl, rfl, rfl, rfl, rfl, rfl⟩
  intro cmdLen outLen inLen dir timeoutNs
  unfold buildHeader senseBufferLen
  refine ⟨?_, ?_, ?_, ?_⟩
  · split <;> split <;> rfl
  · split <;> split <;> rfl
  · split <;> split <;> rfl
  · intro hlt
    have hmod : cmdLen % 2 ^ 8 = cmdLen := Nat.mod_eq_of_lt (by norm_num; omega)
    split <;> split <;> simpa using hmod

/-- C9 witness: the general field facts at the send-phase call site. -/
theorem header_construction_witness :
    (buildHeader 6 8 0 (-2) 60000000000).cmd_len = 6 :=
  (header_construction.1 6 8 0 (-2) 60000000000).2.2.2 (by omega)

/-- C3: a page of sufficient length in which some 2-byte group of the
temperature field is not a valid hexadecimal ASCII pair makes the decoder
return the pair-parse error — never a string result. -/
theorem extract_bad_pair_fails (data : List Nat) (hlen : 30 ≤ data.length)
    (hbad : ∃ k, k < 4 ∧ ¬goodPairAt data (22 + 2 * k)) :
    ∃ p e, extractAndConvertTemperature data = .error (.parsePair p e) := by
  unfold extractAndConvertTemperature
  rw [if_neg (by omega)]
  apply extractLoop_err_of_badPair
  · intro i hi
    simp only [List.mem_cons, List.not_mem_nil, or_false] at hi
    rcases hi with rfl | rfl | rfl | rfl <;> omega
  · rcases hbad with ⟨k, hk, hkbad⟩
    interval_cases k
    · exact ⟨22, by simp, by simpa using hkbad⟩
    · exact ⟨24, by simp, by simpa using hkbad⟩
    · exact ⟨26, by simp, by simpa using hkbad⟩
    · exact ⟨28, by simp, by simpa using hkbad⟩

/-- C3 witness: a 30-byte page whose byte 22 is `'G'` fails with a
pair-parse error. -/
theorem extract_bad_pair_fails_witness :
    ∃ p e, extractAndConvertTemperature dataPageC = .error (.parsePair p e) :=
  extract_bad_pair_fails dataPageC (by simp [dataPageC])
    ⟨0, by omega, by decide⟩

/-- C10: the decoder's outcome depends only on bytes 22-29 — two pages of
length at least 30 that agree there produce identical results, successes
and failures alike. -/
theorem extract_depends_only_on_field (d1 d2 : List Nat)
    (h1 : 30 ≤ d1.length) (h2 : 30 ≤ d2.length)
    (hagree : ∀ i, i < 30 → 22 ≤ i → d1.getD i 0 = d2.getD i 0) :
    extractAndConvertTemperature d1 = extractAndConvertTemperature d2 := by
  unfold extractAndConvertTemperature
  rw [if_neg (by omega), if_neg (by omega)]
  apply extractLoop_congr
  intro i hi
  simp only [List.mem_cons, List.not_mem_nil, or_false] at hi
  have hpair : ∀ j, j + 1 < 30 → 22 ≤ j →
      (d1.drop j).take 2 = (d2.drop j).take 2 := by
    intro j hj1 hj2
    rw [drop_take_two d1 j (by omega), drop_take_two d2 j (by omega),
      hagree j (by omega) (by omega), hagree (j + 1) (by omega) (by omega)]
  rcases hi with rfl | rfl | rfl | rfl
  · exact hpair 22 (by omega) (by omega)
  · exact hpair 24 (by omega) (by omega)
  · exact hpair 26 (by omega) (by omega)
  · exact hpair 28 (by omega) (by omega)

/-- C10 witness: appending a trailing byte outside the field does not
change the decoder's result. -/
theorem extract_depends_only_on_field_witness :
    extractAndConvertTemperature dataPageB =
      extractAndConvertTemperature (dataPageB ++ [99]) :=
  extract_depends_only_on_field dataPageB (dataPageB ++ [99])
    (by simp [dataPageB]) (by simp [dataPageB]) (by decide)

lemma pairValD_le (data : List Nat) (i : Nat) : pairValD data i ≤ 255 := by
  unfold pairValD
  have h1 := hexValD_le (data.getD i 0)
  have h2 := hexValD_le (data.getD (i + 1) 0)
  omega

/-- C1 counterexample: a 30-byte page whose temperature field is the hex
ASCII bytes `"AAAAAAAA"` satisfies the claim's hypothesis, yet the decoder
returns the 8-character string `"AAAAAAAA"`, not a 4-character one. -/
theorem extract_four_char_counterexample :
    30 ≤ dataPageA.length ∧
    (∀ i, i < 30 → 22 ≤ i → (hexDigitVal (dataPageA.getD i 0)).isSome) ∧
    ∃ s, extractAndConvertTemperature dataPageA = .ok s ∧ s.length ≠ 4 := by
  refine ⟨by simp [dataPageA], by decide, List.replicate 8 65, by rfl, by simp⟩

/-- C1 amended: on every page of length ≥ 30 whose bytes 22-29 are ASCII
hex digit pairs, the decoder succeeds with an uppercase hexadecimal string
of between 4 and 8 characters, the concatenation, in order, of the `%X`
renderings (1 or 2 digits, leading zeros dropped) of the four 8-bit values
parsed from the 2-byte ASCII groups. -/
theorem extract_valid_field_format (data : List Nat) (hlen : 30 ≤ data.length)
    (hhex : ∀ i, i < 30 → 22 ≤ i → (hexDigitVal (data.getD i 0)).isSome) :
    ∃ s, extractAndConvertTemperature data = .ok s ∧
      s = toUpperHex (pairValD data 22) ++ toUpperHex (pairValD data 24) ++
          toUpperHex (pairValD data 26) ++ toUpperHex (pairValD data 28) ∧
      4 ≤ s.length ∧ s.length ≤ 8 ∧ ∀ c ∈ s, isUpperHexDigit c := by
  have hgood : ∀ i ∈ [22, 24, 26, 28], i + 1 < data.length ∧ goodPairAt data i := by
    intro i hi
    simp only [List.mem_cons, List.not_mem_nil, or_false] at hi
    rcases hi with rfl | rfl | rfl | rfl <;>
      exact ⟨by omega, hhex _ (by omega) (by omega), hhex _ (by omega) (by omega)⟩
  have hloop := extractLoop_ok_of_goodPairs data [22, 24, 26, 28] [] hgood
  have hok : extractAndConvertTemperature data =
      .ok (toUpperHex (pairValD data 22) ++ toUpperHex (pairValD data 24) ++
        toUpperHex (pairValD data 26) ++ toUpperHex (pairValD data 28)) := by
    unfold extractAndConvertTemperature
    rw [if_neg (by omega), hloop]
    simp [List.append_assoc]
  refine ⟨_, hok, rfl, ?_, ?_, ?_⟩
  · obtain ⟨h1, _⟩ := toUpperHex_length (pairValD data 22)
    obtain ⟨h2, _⟩ := toUpperHex_length (pairValD data 24)
    obtain ⟨h3, _⟩ := toUpperHex_length (pairValD data 26)
    obtain ⟨h4, _⟩ := toUpperHex_length (pairValD data 28)
    simp only [List.length_append]
    omega
  · obtain ⟨_, h1⟩ := toUpperHex_length (pairValD data 22)
    obtain ⟨_, h2⟩ := toUpperHex_length (pairValD data 24)
    obtain ⟨_, h3⟩ := toUpperHex_length (pairValD data 26)
    obtain ⟨_, h4⟩ := toUpperHex_length (pairValD data 28)
    simp only [List.length_append]
    omega
  · intro c hc
    simp only [List.mem_append] at hc
    rcases hc with ((hc | hc) | hc) | hc <;>
      exact toUpperHex_upper _ (pairValD_le data _) c hc

/-- C1 witness (for the amended theorem): the spec's worked page, whose
field bytes are the ASCII string `"00080401"`, decodes to `"0841"`. -/
theorem extract_valid_field_format_witness :
    ∃ s, extractAndConvertTemperature dataPageB = .ok s ∧
      s = toUpperHex (pairValD dataPageB 22) ++ toUpperHex (pairValD dataPageB 24) ++
          toUpperHex (pairValD dataPageB 26) ++ toUpperHex (pairValD dataPageB 28) ∧
      4 ≤ s.length ∧ s.length ≤ 8 ∧ ∀ c ∈ s, isUpperHexDigit c :=
  extract_valid_field_format dataPageB (by simp [dataPageB]) (by decide)

/-- C4: whenever extraction succeeds, `hexToDecimal` succeeds on its
output; `hexToDecimal` fails on the empty string; and it fails on every
string that is not a (sign-optional) hexadecimal numeral. -/
theorem decode_composes_with_extract :
    (∀ data s, extractAndConvertTemperature data = .ok s →
      ∃ n, hexToDecimal s = .ok n) ∧
    hexToDecimal [] = .error .errSyntax ∧
    (∀ s, ¬isSignedHexNumeral s → ∃ e, hexToDecimal s = .error e) := by
  refine ⟨?_, rfl, ?_⟩
  · intro data s hE
    unfold extractAndConvertTemperature at hE
    split at hE
    · cases hE
    · obtain ⟨hmem, hlo, hhi⟩ := extractLoop_ok_shape data [22, 24, 26, 28] [] s hE
      simp only [List.length_nil, List.length_cons, List.length_singleton] at hlo hhi
      have hupper : ∀ c ∈ s, isUpperHexDigit c := by
        intro c hc
        rcases hmem c hc with hca | hcu
        · simp at hca
        · exact hcu
      cases s with
      | nil => simp at hlo
      | cons c0 rest =>
        have hc0 : isUpperHexDigit c0 := hupper c0 (List.mem_cons_self c0 rest)
        have hssign : stripSign (c0 :: rest) = c0 :: rest := by
          simp only [stripSign]
          rw [if_neg (by rintro (rfl | rfl) <;>
            rcases hc0 with ⟨ha, hb⟩ | ⟨ha, hb⟩ <;> omega)]
        have hdig : ∀ c ∈ c0 :: rest, (hexDigitVal c).isSome :=
          fun c hc => hexDigitVal_isSome_of_upper c (hupper c hc)
        have hlen8 : (c0 :: rest).length ≤ 8 := by omega
        have hbound : foldVal 0 (c0 :: rest) ≤ 2 ^ 64 - 1 := by
          have hfl := foldVal_le (c0 :: rest) 0
          have hp : (16 : Nat) ^ (c0 :: rest).length ≤ 16 ^ 8 :=
            Nat.pow_le_pow_right (by norm_num) hlen8
          have h168 : (16 : Nat) ^ 8 = 4294967296 := by norm_num
          have h64 : (2 : Nat) ^ 64 - 1 = 18446744073709551615 := by norm_num
          omega
        have hloopok : parseUintBase16 64 (c0 :: rest) = .ok (foldVal 0 (c0 :: rest)) := by
          unfold parseUintBase16
          rw [if_neg (by simp)]
          exact parseUintLoop_ok (2 ^ 64 - 1) le_rfl (c0 :: rest) 0 hdig hbound
        have hfits : foldVal 0 (c0 :: rest) < 2 ^ 63 := by
          have hfl := foldVal_le (c0 :: rest) 0
          have hp : (16 : Nat) ^ (c0 :: rest).length ≤ 16 ^ 8 :=
            Nat.pow_le_pow_right (by norm_num) hlen8
          have h168 : (16 : Nat) ^ 8 = 4294967296 := by norm_num
          have h63 : (2 : Nat) ^ 63 = 9223372036854775808 := by norm_num
          omega
        refine ⟨(foldVal 0 (c0 :: rest) : Int), ?_⟩
        simp only [hexToDecimal, parseIntBase16, hssign, hloopok]
        rw [if_neg (by rintro rfl; rcases hc0 with ⟨ha, hb⟩ | ⟨ha, hb⟩ <;> omega),
          if_neg (by omega)]
  · intro s hns
    cases s with
    | nil => exact ⟨.errSyntax, rfl⟩
    | cons c rest =>
      unfold isSignedHexNumeral at hns
      push_neg at hns
      by_cases hst : stripSign (c :: rest) = []
      · refine ⟨.errSyntax, ?_⟩
        simp only [hexToDecimal, parseIntBase16, hst]
        simp [parseUintBase16]
      · obtain ⟨x, hx, hxbad⟩ := hns hst
        have hxnone : hexDigitVal x = none := Option.not_isSome_iff_eq_none.mp hxbad
        obtain ⟨e, he⟩ := parseUintLoop_err (2 ^ 64 - 1) (stripSign (c :: rest)) 0
          ⟨x, hx, hxnone⟩
        have hpu : parseUintBase16 64 (stripSign (c :: rest)) = .error e := by
          unfold parseUintBase16
          rw [if_neg hst]
          exact he
        refine ⟨e, ?_⟩
        simp only [hexToDecimal, parseIntBase16, hpu]

/-- C4 witness: on the decoder output `"0841"` of the spec's worked page,
`hexToDecimal` succeeds. -/
theorem decode_composes_with_extract_witness :
    ∃ n, hexToDecimal [48, 56, 52, 49] = .ok n :=
  decode_composes_with_extract.1 dataPageB [48, 56, 52, 49] (by rfl)
